import Mathlib

/-!
Shallow embedding of the tweaktok simulation core (`SimulationEngine` and its
helpers).  All numeric values are modelled as rationals; the two transcendental
library calls of the source (`Math.tanh`, `Math.log10`) are supplied as
abstract function parameters (the `Transcend` bundle), and every random draw
(`Math.random()` outputs and the Box–Muller unit-normal outputs produced by
`randNorm`) is supplied explicitly through draw streams, so that the whole
pipeline is a deterministic, executable function of its inputs.
-/

namespace Tweaktok

/-- The six content attributes, translated from the `ATTRS` constant. -/
inductive Attr where
  | humor | insight | bait | controversy | news | dunk
deriving DecidableEq

/-- The five user archetypes, translated from the `USER_TYPES` constant. -/
inductive UserType where
  | Normal | Joker | Troll | Intellectual | Journalist
deriving DecidableEq

/-- The five discrete reaction levels (keys of `TYPE_REACT_UTILITY`). -/
inductive React where
  | SA | A | NS | D | SD
deriving DecidableEq

/-- `ATTRS` in source order. -/
def ATTRS : List Attr :=
  [.humor, .insight, .bait, .controversy, .news, .dunk]

/-- `USER_TYPES` in source order. -/
def USER_TYPES : List UserType :=
  [.Normal, .Joker, .Troll, .Intellectual, .Journalist]

/-- `clamp01`: `Math.max(0, Math.min(1, x))`. -/
def clamp01 (x : ℚ) : ℚ := max 0 (min 1 x)

/-- JavaScript `x || d` on numbers: the left operand unless it is falsy (0). -/
def jsOr (x d : ℚ) : ℚ := if x = 0 then d else x

/-- `TYPE_BIAS` lookup table. -/
def TYPE_BIAS : UserType → Attr → ℚ
  | .Normal, .humor => 0.5
  | .Normal, .insight => 0.5
  | .Normal, .bait => 0.3
  | .Normal, .controversy => 0.3
  | .Normal, .news => 0.5
  | .Normal, .dunk => 0.3
  | .Joker, .humor => 0.8
  | .Joker, .insight => 0.3
  | .Joker, .bait => 0.3
  | .Joker, .controversy => 0.3
  | .Joker, .news => 0.2
  | .Joker, .dunk => 0.6
  | .Troll, .humor => 0.3
  | .Troll, .insight => 0.1
  | .Troll, .bait => 0.8
  | .Troll, .controversy => 0.8
  | .Troll, .news => 0.1
  | .Troll, .dunk => 0.6
  | .Intellectual, .humor => 0.2
  | .Intellectual, .insight => 0.8
  | .Intellectual, .bait => 0.1
  | .Intellectual, .controversy => 0.2
  | .Intellectual, .news => 0.6
  | .Intellectual, .dunk => 0.1
  | .Journalist, .humor => 0.25
  | .Journalist, .insight => 0.55
  | .Journalist, .bait => 0.1
  | .Journalist, .controversy => 0.2
  | .Journalist, .news => 0.9
  | .Journalist, .dunk => 0.1

/-- `VIBE_PROB` lookup table. -/
def VIBE_PROB : UserType → ℚ
  | .Normal => 0.25
  | .Joker => 0
  | .Troll => 0
  | .Intellectual => 0.4
  | .Journalist => 0.4

/-- `TYPE_REACT_UTILITY` lookup table. -/
def TYPE_REACT_UTILITY : UserType → React → ℚ
  | .Normal, .SA => 1.4
  | .Normal, .A => 1.1
  | .Normal, .NS => -0.3
  | .Normal, .D => -0.5
  | .Normal, .SD => -1.0
  | .Joker, .SA => 1.2
  | .Joker, .A => 1.1
  | .Joker, .NS => -0.2
  | .Joker, .D => -0.4
  | .Joker, .SD => -1.0
  | .Intellectual, .SA => 0.9
  | .Intellectual, .A => 1.0
  | .Intellectual, .NS => 0.6
  | .Intellectual, .D => 0.6
  | .Intellectual, .SD => -0.7
  | .Journalist, .SA => 0.8
  | .Journalist, .A => 1.0
  | .Journalist, .NS => 0.7
  | .Journalist, .D => 0.7
  | .Journalist, .SD => -0.7
  | .Troll, .SA => 1.1
  | .Troll, .A => -0.6
  | .Troll, .NS => -0.8
  | .Troll, .D => -0.6
  | .Troll, .SD => 1.2

/-- The `SimulationConfig` record.  Counts are naturals, reach bounds are
integers, every other numeric field is a rational. -/
structure Config where
  usersN : ℕ
  rounds : ℕ
  learnRate : ℚ
  baitRatioThresh : ℚ
  baitPenaltyMult : ℚ
  reachMin : ℤ
  reachMax : ℤ
  vibeFlagMult : ℚ
  polarCoupling : ℚ
  vibeHumorPenalty : ℚ
  vibeControversyPenalty : ℚ
  vibeInsightBoost : ℚ
  vibeCommentBoost : ℚ
  vibeReachBoost : ℚ
  followGainThresh : ℚ
  followersMean : ℚ
  followerReachFactor : ℚ
  globalAudienceK : ℚ
  homophilyStrength : ℚ
  viralityThreshold : ℚ
  localFloor : ℚ
  followGainRate : ℚ
  followLossRate : ℚ
  w : React → ℚ
  boosts : Attr → ℚ
  mix : UserType → ℚ
  baseVibeProb : ℚ
  maWindow : ℕ

/-- The `User` record.  `strategy` is the six-component strategy vector,
`followers` is kept as an integer (the source clamps it at zero itself). -/
structure User where
  id : ℕ
  type : UserType
  strategy : Attr → ℚ
  vibeStrategy : ℚ
  wReact : ℚ
  learnRate : ℚ
  followers : ℤ

/-- The five reaction probabilities, field names as in the source objects. -/
structure Probs where
  strong_agree : ℚ
  agree : ℚ
  not_sure : ℚ
  disagree : ℚ
  strong_disagree : ℚ

/-- Sum of the five reaction probabilities, in source summation order. -/
def pTotal (p : Probs) : ℚ :=
  p.strong_agree + p.agree + p.not_sure + p.disagree + p.strong_disagree

/-- Divide every component by `t` (the source's inline `/= total` block). -/
def divProbs (p : Probs) (t : ℚ) : Probs :=
  { strong_agree := p.strong_agree / t
    agree := p.agree / t
    not_sure := p.not_sure / t
    disagree := p.disagree / t
    strong_disagree := p.strong_disagree / t }

/-- Multiply every component by `m` (the bait-penalty `*= mult` loop). -/
def scaleProbs (p : Probs) (m : ℚ) : Probs :=
  { strong_agree := p.strong_agree * m
    agree := p.agree * m
    not_sure := p.not_sure * m
    disagree := p.disagree * m
    strong_disagree := p.strong_disagree * m }

/-- The `if (total > 1) { divide each by total }` renormalisation that the
source writes inline in `reactionProbs`, `applyHomophily` and the impression
loop. -/
def renormIfGt1 (p : Probs) : Probs :=
  if 1 < pTotal p then divProbs p (pTotal p) else p

/-- `SimulationEngine.reactionProbs`. -/
def reactionProbs (eff : Attr → ℚ) : Probs :=
  let pos := 0.45 * eff .insight + 0.35 * eff .humor + 0.35 * eff .dunk
  let neg := 0.35 * eff .controversy + 0.3 * eff .bait + 0.15 * eff .dunk
  let amb := 0.3 * eff .controversy + 0.15 * eff .news
  renormIfGt1
    { strong_agree := clamp01 (0.03 + 0.55 * pos)
      agree := clamp01 (0.06 + 0.5 * (0.4 * eff .humor + 0.5 * eff .insight + 0.3 * eff .news))
      not_sure := clamp01 (0.02 + 0.35 * amb - 0.05 * eff .insight)
      disagree := clamp01 (0.02 + 0.45 * eff .controversy + 0.05 * eff .bait - 0.05 * eff .insight)
      strong_disagree := clamp01 (0.01 + 0.3 * neg) }

/-- `SimulationEngine.applyHomophily`. -/
def applyHomophily (p : Probs) (h : ℚ) : Probs :=
  renormIfGt1
    { p with
      strong_agree := p.strong_agree * (1 + h)
      agree := p.agree * (1 + 0.6 * h)
      disagree := p.disagree * (1 - 0.7 * h)
      strong_disagree := p.strong_disagree * (1 - h) }

/-- `SimulationEngine.baitFlagProb`. -/
def baitFlagProb (eff : Attr → ℚ) (vibeOn : Bool) (flagMult : ℚ) : ℚ :=
  let p := 0.1 * eff .bait + 0.08 * eff .controversy + 0.06 * eff .dunk
  let p := if vibeOn then p * flagMult else p
  clamp01 (0.01 + p)

/-- `SimulationEngine.commentProb`. -/
def commentProb (eff : Attr → ℚ) (vibeOn : Bool) (boost : ℚ) : ℚ :=
  let hi := 0.4 * eff .controversy + 0.35 * eff .bait + 0.3 * eff .dunk
  let med := (0.18 * (eff .humor + eff .insight + eff .news)) / 3
  let p := clamp01 (0.03 + hi + med)
  if vibeOn then clamp01 (p * (1 + boost)) else p

/-- `SimulationEngine.vibeAdjust`. -/
def vibeAdjust (eff : Attr → ℚ) (vibe : Bool) (cfg : Config) : Attr → ℚ :=
  if vibe then
    fun k =>
      match k with
      | .humor => clamp01 (eff .humor * (1 - cfg.vibeHumorPenalty))
      | .controversy => clamp01 (eff .controversy * (1 - cfg.vibeControversyPenalty))
      | .insight => clamp01 (eff .insight * (1 + cfg.vibeInsightBoost))
      | k => eff k
  else eff

/-- `SimulationEngine.applyBoosts` (the `boosts[k] || 0` guard is irrelevant
for a total function). -/
def applyBoosts (eff : Attr → ℚ) (boosts : Attr → ℚ) : Attr → ℚ :=
  fun k => clamp01 (eff k * (1 + boosts k))

/-- The abstract transcendental library calls of the source: `Math.tanh` and
`Math.log10`, supplied as parameters so the embedding stays executable. -/
structure Transcend where
  jtanh : ℚ → ℚ
  jlog10 : ℚ → ℚ

/-- Output of `randNorm(mu, sigma)` factored through its unit-normal
Box–Muller draw `g` (the value of `sqrt(-2 ln u) * cos(2 pi v)`), which the
draw streams supply directly. -/
def randNormOut (mu sigma g : ℚ) : ℚ := mu + sigma * g

/-- `Math.random()` outputs consumed by one iteration of the per-impression
loop, in the order the source draws them: the local/global classification
draw, the bait-flag draw, the reaction draw and the comment draw. -/
structure ImpDraws where
  localU : ℚ
  baitU : ℚ
  reactU : ℚ
  commentU : ℚ

/-- The mutable locals of one post's impression loop: the five reaction
counters, `baitFlags`, `comments`, `interactions`, the sticky `penalty` flag,
and `commentP` (which the source mutates inside the loop whenever the penalty
is active). -/
structure ImpState where
  counts : React → ℕ
  baitFlags : ℕ
  comments : ℕ
  interactions : ℕ
  penalty : Bool
  commentP : ℚ

/-- Loop-local state at the top of a post's impression loop. -/
def initImpState (commentP0 : ℚ) : ImpState :=
  { counts := fun _ => 0
    baitFlags := 0
    comments := 0
    interactions := 0
    penalty := false
    commentP := commentP0 }

/-- `SimulationEngine.sampleReaction`, with the uniform draw `u` passed in.
`none` is the implicit residual outcome.  Mirrors the subtractive scan over
the six labels with `r = u * total`. -/
def sampleReaction (p : Probs) (u : ℚ) : Option React :=
  let rem := max 0 (1 - pTotal p)
  let t := pTotal p + rem
  let r := u * t
  if r - p.strong_agree ≤ 0 then some .SA
  else if r - p.strong_agree - p.agree ≤ 0 then some .A
  else if r - p.strong_agree - p.agree - p.not_sure ≤ 0 then some .NS
  else if r - p.strong_agree - p.agree - p.not_sure - p.disagree ≤ 0 then some .D
  else if r - p.strong_agree - p.agree - p.not_sure - p.disagree - p.strong_disagree ≤ 0 then
    some .SD
  else none

/-- Increment one reaction counter (`counts[rlab]++`). -/
def bumpCount (c : React → ℕ) (r : React) : React → ℕ :=
  fun x => if x = r then c x + 1 else c x

/-- The local-audience share of impression `i`: `followers / (followers + K)`
capped past the virality threshold at `max(localFloor, 0.3 * localShare)`. -/
def impLocalShare (cfg : Config) (followers : ℤ) (i : ℕ) : ℚ :=
  let localShare : ℚ := (followers : ℚ) / ((followers : ℚ) + cfg.globalAudienceK)
  if cfg.viralityThreshold < (i : ℚ) then max cfg.localFloor (0.3 * localShare)
  else localShare

/-- The reaction probabilities after the local/global classification: local
impressions get the homophily adjustment, global ones keep the base. -/
def impProbsHom (cfg : Config) (followers : ℤ) (probsBase : Probs) (i : ℕ)
    (d : ImpDraws) : Probs :=
  if d.localU < impLocalShare cfg followers i then
    applyHomophily probsBase cfg.homophilyStrength
  else probsBase

/-- The reaction probabilities of one impression after the local/global
classification, the homophily adjustment and the polarisation coupling with
its renormalisation — everything the loop body does to `probs` before the
bait penalty is considered. -/
def impProbsPre (cfg : Config) (followers : ℤ) (probsBase : Probs) (i : ℕ)
    (d : ImpDraws) (s : ImpState) : Probs :=
  let probs := impProbsHom cfg followers probsBase i d
  let seen : ℚ := max 1 (s.interactions : ℚ)
  let saFrac := (s.counts .SA : ℚ) / seen
  let sdFrac := (s.counts .SD : ℚ) / seen
  renormIfGt1
    { probs with
      strong_disagree := clamp01 (probs.strong_disagree + cfg.polarCoupling * saFrac)
      strong_agree := clamp01 (probs.strong_agree + cfg.polarCoupling * sdFrac) }

/-- `baitFlags` after this impression's independent bait-flag draw. -/
def impBaitFlags (baitP : ℚ) (d : ImpDraws) (s : ImpState) : ℕ :=
  if d.baitU < baitP then s.baitFlags + 1 else s.baitFlags

/-- The sticky penalty flag after this impression's threshold check: the
running ratio (bait flags so far, including this impression's draw, over the
reactions-and-comments recorded before this impression) is compared with the
configured threshold. -/
def impPenaltyAfter (cfg : Config) (baitP : ℚ) (d : ImpDraws) (s : ImpState) : Bool :=
  let reactCount :=
    s.counts .SA + s.counts .A + s.counts .NS + s.counts .D + s.counts .SD + s.comments
  let baitFrac : ℚ := (impBaitFlags baitP d s : ℚ) / max 1 (reactCount : ℚ)
  s.penalty || decide (cfg.baitRatioThresh ≤ baitFrac)

/-- The reaction probabilities actually handed to `sampleReaction` for this
impression (after the bait penalty, when active). -/
def impProbsUsed (cfg : Config) (followers : ℤ) (probsBase : Probs) (baitP : ℚ)
    (i : ℕ) (d : ImpDraws) (s : ImpState) : Probs :=
  if impPenaltyAfter cfg baitP d s then
    scaleProbs (impProbsPre cfg followers probsBase i d s) cfg.baitPenaltyMult
  else impProbsPre cfg followers probsBase i d s

/-- The comment probability actually used for this impression's comment draw
(the loop variable `commentP` after this impression's `*= mult`, when the
penalty is active). -/
def impCommentPUsed (cfg : Config) (baitP : ℚ) (d : ImpDraws) (s : ImpState) : ℚ :=
  if impPenaltyAfter cfg baitP d s then s.commentP * cfg.baitPenaltyMult else s.commentP

/-- One iteration of the per-impression loop (`runRounds`, loop body for
impression index `i`). -/
def impressionStep (cfg : Config) (followers : ℤ) (probsBase : Probs) (baitP : ℚ)
    (i : ℕ) (d : ImpDraws) (s : ImpState) : ImpState :=
  let probs := impProbsUsed cfg followers probsBase baitP i d s
  let commentP := impCommentPUsed cfg baitP d s
  { counts :=
      match sampleReaction probs d.reactU with
      | some r => bumpCount s.counts r
      | none => s.counts
    baitFlags := impBaitFlags baitP d s
    comments := if d.commentU < commentP then s.comments + 1 else s.comments
    interactions := s.interactions + 1
    penalty := impPenaltyAfter cfg baitP d s
    commentP := commentP }

/-- Run `k` consecutive impressions starting at impression index `i`. -/
def impLoopFrom (cfg : Config) (followers : ℤ) (probsBase : Probs) (baitP : ℚ)
    (draws : ℕ → ImpDraws) : ℕ → ℕ → ImpState → ImpState
  | _, 0, s => s
  | i, k + 1, s =>
      impLoopFrom cfg followers probsBase baitP draws (i + 1) k
        (impressionStep cfg followers probsBase baitP i (draws i) s)

/-- Integer base reach draw: `Math.floor(minR + Math.random() * (maxR - minR))`
with the uniform draw `u` passed in. -/
def baseDraw (minR maxR : ℤ) (u : ℚ) : ℤ :=
  ⌊(minR : ℚ) + u * ((maxR : ℚ) - (minR : ℚ))⌋

/-- The weighted positive-content score inside `reachFromAttrs`. -/
def posScore (eff : Attr → ℚ) : ℚ :=
  0.8 * eff .humor + 0.8 * eff .bait + 0.6 * eff .insight +
    0.5 * eff .news + 0.4 * eff .controversy + 0.3 * eff .dunk

/-- `SimulationEngine.reachFromAttrs`, with the uniform base draw `u` passed
in and `Math.log10` taken from the `Transcend` bundle. -/
def reachFromAttrs (T : Transcend) (eff : Attr → ℚ) (minR maxR : ℤ)
    (followerFactor : ℚ) (followers : ℤ) (vibeOn : Bool) (vibeReachBoost : ℚ)
    (u : ℚ) : ℤ :=
  let base := baseDraw minR maxR u
  let reach := (base : ℚ) * (0.3 + 2.0 * posScore eff)
  let reach := reach * (1 + followerFactor * T.jlog10 (1 + (followers : ℚ)))
  let reach := if vibeOn then reach * (1 + vibeReachBoost) else reach
  max 5 ⌊reach⌋

/-- `SimulationEngine.engagementScore`. -/
def engagementScore (counts : React → ℕ) (comments : ℕ) (u : User)
    (W : React → ℚ) : ℚ :=
  let U := TYPE_REACT_UTILITY u.type
  let wrBase :=
    W .SA * (counts .SA : ℚ) + W .A * (counts .A : ℚ) + W .NS * (counts .NS : ℚ) +
      W .D * (counts .D : ℚ) + W .SD * (counts .SD : ℚ)
  let wrType :=
    U .SA * (counts .SA : ℚ) + U .A * (counts .A : ℚ) + U .NS * (counts .NS : ℚ) +
      U .D * (counts .D : ℚ) + U .SD * (counts .SD : ℚ)
  let wr := 0.5 * wrBase + 0.5 * wrType
  u.wReact * wr + (1 - u.wReact) * (comments : ℚ)

/-- `SimulationEngine.learn`.  `Math.tanh` comes from the `Transcend` bundle;
`VIBE_PROB[user.type] || 0.5` keeps its JavaScript falsy-fallback semantics. -/
def learn (T : Transcend) (u : User) (attrs : Attr → ℚ) (vibeUsed : Bool)
    (reward ref : ℚ) : User :=
  let lr := u.learnRate
  let adj := T.jtanh ((reward - 0.5 * ref) / (0.75 * ref))
  let strat1 := fun k => clamp01 (u.strategy k + lr * adj * (attrs k - u.strategy k))
  let strat2 := fun k => clamp01 (0.97 * strat1 k + 0.03 * TYPE_BIAS u.type k)
  let vibeTarget : ℚ := if vibeUsed then 1 else 0
  let v1 := clamp01 (u.vibeStrategy + lr * adj * (vibeTarget - u.vibeStrategy))
  let typeBias := if u.type = .Normal then 0.05 else jsOr (VIBE_PROB u.type) 0.5
  { u with strategy := strat2, vibeStrategy := clamp01 (0.95 * v1 + 0.05 * typeBias) }

/-- The bait ratio of `followerUpdate`:
`interactions > 0 ? baitFlags / interactions : 0`. -/
def fuBaitFrac (baitFlags interactions : ℕ) : ℚ :=
  if 0 < interactions then (baitFlags : ℚ) / (interactions : ℚ) else 0

/-- `SimulationEngine.followerUpdate`. -/
def followerUpdate (u : User) (counts : React → ℕ) (comments baitFlags : ℕ)
    (cfg : Config) (interactions : ℕ) (reward ref : ℚ) : User :=
  let baitFrac := fuBaitFrac baitFlags interactions
  let gain : ℚ :=
    if cfg.followGainThresh * ref < reward then
      cfg.followGainRate * (2 * (counts .SA : ℚ) + 1 * (counts .A : ℚ) + 0.2 * (comments : ℚ))
    else 0
  let loss : ℚ := cfg.followLossRate * max 0 (baitFrac - cfg.baitRatioThresh) * 10
  let delta : ℤ := round (gain - loss)
  { u with followers := max 0 (u.followers + delta) }

/-- The `PostRow` record. -/
structure PostRow where
  round : ℕ
  user_id : ℕ
  user_type : UserType
  vibe_on : Bool
  followers : ℤ
  humor : ℚ
  insight : ℚ
  bait : ℚ
  controversy : ℚ
  news : ℚ
  dunk : ℚ
  strong_agree : ℕ
  agree : ℕ
  not_sure : ℕ
  disagree : ℕ
  strong_disagree : ℕ
  bait_flags : ℕ
  comments : ℕ
  reward : ℚ

/-- The attribute columns of a post row, as a function. -/
def rowAttr (r : PostRow) : Attr → ℚ
  | .humor => r.humor
  | .insight => r.insight
  | .bait => r.bait
  | .controversy => r.controversy
  | .news => r.news
  | .dunk => r.dunk

/-- Random draws consumed by one agent's turn in one round: the six unit
Gaussian outputs for attribute generation, the tone-adoption draw, the base
reach draw, and the per-impression draw stream. -/
structure AgentDraws where
  attrG : Attr → ℚ
  vibeU : ℚ
  reachU : ℚ
  imp : ℕ → ImpDraws

/-- Attribute generation: `clamp01(randNorm(0.85*strategy + 0.15*bias, 0.12))`
per attribute (these raw values are what the post row logs). -/
def genAttrs (u : User) (d : AgentDraws) : Attr → ℚ :=
  fun k => clamp01 (randNormOut (0.85 * u.strategy k + 0.15 * TYPE_BIAS u.type k) 0.12 (d.attrG k))

/-- Tone decision: Jokers and Trolls never adopt; everyone else draws against
their current `vibeStrategy`. -/
def vibeDecision (u : User) (d : AgentDraws) : Bool :=
  match u.type with
  | .Joker => false
  | .Troll => false
  | _ => decide (d.vibeU < u.vibeStrategy)

/-- The reference-scale EMA update performed once per agent:
`ref = 0.98 * ref + 0.02 * Math.max(1, reward)`. -/
def refUpdate (ref reward : ℚ) : ℚ :=
  0.98 * ref + 0.02 * max 1 reward

/-- Effective attributes of one post: tone adjustment then platform boosts. -/
def postEff (cfg : Config) (u : User) (d : AgentDraws) : Attr → ℚ :=
  applyBoosts (vibeAdjust (genAttrs u d) (vibeDecision u d) cfg) cfg.boosts

/-- The impression budget (`reachBudget`) of one post, as a natural. -/
def postReach (T : Transcend) (cfg : Config) (u : User) (d : AgentDraws) : ℕ :=
  (reachFromAttrs T (postEff cfg u d) cfg.reachMin cfg.reachMax cfg.followerReachFactor
      u.followers (vibeDecision u d) cfg.vibeReachBoost d.reachU).toNat

/-- Final loop state of one post's impression loop. -/
def postImpState (T : Transcend) (cfg : Config) (u : User) (d : AgentDraws) : ImpState :=
  let eff := postEff cfg u d
  let vibeOn := vibeDecision u d
  impLoopFrom cfg u.followers (reactionProbs eff) (baitFlagProb eff vibeOn cfg.vibeFlagMult)
    d.imp 0 (postReach T cfg u d)
    (initImpState (commentProb eff vibeOn cfg.vibeCommentBoost))

/-- Reward of one post (`engagementScore` on the final loop counters). -/
def postReward (T : Transcend) (cfg : Config) (u : User) (d : AgentDraws) : ℚ :=
  engagementScore (postImpState T cfg u d).counts (postImpState T cfg u d).comments u cfg.w

/-- Result of one agent's turn: the mutated agent, the new reference scale and
the appended post row. -/
structure PostOutcome where
  user : User
  ref : ℚ
  row : PostRow

/-- One agent's full turn inside `runRounds`: attribute generation, tone
decision, effective attributes, reach, the impression loop, the reward, the
reference EMA update, `learn`, `followerUpdate`, and the logged post row
(which records the raw generated attributes and the post-update follower
count). -/
def processUser (T : Transcend) (cfg : Config) (roundIndex : ℕ) (d : AgentDraws)
    (u : User) (ref : ℚ) : PostOutcome :=
  let attrs := genAttrs u d
  let vibeOn := vibeDecision u d
  let fin := postImpState T cfg u d
  let reward := postReward T cfg u d
  let ref' := refUpdate ref reward
  let u1 := learn T u attrs vibeOn reward ref'
  let u2 := followerUpdate u1 fin.counts fin.comments fin.baitFlags cfg fin.interactions reward ref'
  { user := u2
    ref := ref'
    row :=
      { round := roundIndex
        user_id := u.id
        user_type := u.type
        vibe_on := vibeOn
        followers := u2.followers
        humor := attrs .humor
        insight := attrs .insight
        bait := attrs .bait
        controversy := attrs .controversy
        news := attrs .news
        dunk := attrs .dunk
        strong_agree := fin.counts .SA
        agree := fin.counts .A
        not_sure := fin.counts .NS
        disagree := fin.counts .D
        strong_disagree := fin.counts .SD
        bait_flags := fin.baitFlags
        comments := fin.comments
        reward := reward } }

/-- The `SimulationState` record.  JavaScript array pushes become appends at
the right end of the lists. -/
structure SimState where
  users : List User
  rows : List PostRow
  ref : ℚ
  roundsDone : ℕ
  seriesReward : List ℚ
  seriesBait : List ℚ
  seriesAttrs : List (List ℚ)
  seriesAttrsByType : UserType → List (List ℚ)
  seriesFollowersByType : UserType → List ℚ
  seriesFollowersAll : List ℚ
  seriesVibeOverall : List ℚ
  seriesVibeByType : UserType → List ℚ
  best : Option PostRow

/-- Best-post tracking: replace only on a strictly larger reward, so ties keep
the earliest row. -/
def bestUpdate (b : Option PostRow) (row : PostRow) : Option PostRow :=
  match b with
  | none => some row
  | some p => if p.reward < row.reward then some row else some p

/-- The per-round accumulators of the user loop in `runRounds`: the threaded
reference scale, the processed users and rows (in reverse push order), the
best row, and the aggregation sums of the Series Aggregator. -/
structure RoundAcc where
  ref : ℚ
  usersRev : List User
  rowsRev : List PostRow
  best : Option PostRow
  rewardSum : ℚ
  baitSum : ℚ
  count : ℕ
  attrSum : Attr → ℚ
  attrN : ℕ
  attrSumByType : UserType → Attr → ℚ
  attrNByType : UserType → ℕ
  vibeOnCount : ℕ
  vibeOnByType : UserType → ℕ
  postsByType : UserType → ℕ

/-- Process one user inside the round loop and fold their results into the
accumulators. -/
def roundUserStep (T : Transcend) (cfg : Config) (roundIndex : ℕ)
    (rdraws : ℕ → AgentDraws) (acc : RoundAcc) (iu : ℕ × User) : RoundAcc :=
  let o := processUser T cfg roundIndex (rdraws iu.1) iu.2 acc.ref
  { ref := o.ref
    usersRev := o.user :: acc.usersRev
    rowsRev := o.row :: acc.rowsRev
    best := bestUpdate acc.best o.row
    rewardSum := acc.rewardSum + o.row.reward
    baitSum := acc.baitSum + (o.row.bait_flags : ℚ)
    count := acc.count + 1
    attrSum := fun k => acc.attrSum k + rowAttr o.row k
    attrN := acc.attrN + 1
    attrSumByType := fun t k =>
      if t = iu.2.type then acc.attrSumByType t k + rowAttr o.row k else acc.attrSumByType t k
    attrNByType := fun t => if t = iu.2.type then acc.attrNByType t + 1 else acc.attrNByType t
    vibeOnCount := if o.row.vibe_on then acc.vibeOnCount + 1 else acc.vibeOnCount
    vibeOnByType := fun t =>
      if t = iu.2.type ∧ o.row.vibe_on then acc.vibeOnByType t + 1 else acc.vibeOnByType t
    postsByType := fun t => if t = iu.2.type then acc.postsByType t + 1 else acc.postsByType t }

/-- Total follower count of a user list, as a rational. -/
def totalFollowersOf (us : List User) : ℚ :=
  us.foldl (fun a u => a + (u.followers : ℚ)) 0

/-- One round of `runRounds` (the body of the outer `for r` loop): process all
users in population order with the reference scale threaded through, then
append one entry to every series.  Does not touch `roundsDone` (the source
adds `n` once after all rounds). -/
def runOneRound (T : Transcend) (cfg : Config) (rdraws : ℕ → AgentDraws)
    (roundIndex : ℕ) (st : SimState) : SimState :=
  let acc0 : RoundAcc :=
    { ref := st.ref
      usersRev := []
      rowsRev := []
      best := st.best
      rewardSum := 0
      baitSum := 0
      count := 0
      attrSum := fun _ => 0
      attrN := 0
      attrSumByType := fun _ _ => 0
      attrNByType := fun _ => 0
      vibeOnCount := 0
      vibeOnByType := fun _ => 0
      postsByType := fun _ => 0 }
  let acc := st.users.enum.foldl (roundUserStep T cfg roundIndex rdraws) acc0
  let users' := acc.usersRev.reverse
  { users := users'
    rows := st.rows ++ acc.rowsRev.reverse
    ref := acc.ref
    roundsDone := st.roundsDone
    seriesReward := st.seriesReward ++ [acc.rewardSum / max 1 (acc.count : ℚ)]
    seriesBait := st.seriesBait ++ [acc.baitSum / max 1 (acc.count : ℚ)]
    seriesAttrs := st.seriesAttrs ++ [ATTRS.map fun k => acc.attrSum k / max 1 (acc.attrN : ℚ)]
    seriesAttrsByType := fun t =>
      st.seriesAttrsByType t ++
        [if 0 < acc.attrNByType t then ATTRS.map fun k => acc.attrSumByType t k / (acc.attrNByType t : ℚ)
         else ATTRS.map fun _ => 0]
    seriesFollowersByType := fun t =>
      st.seriesFollowersByType t ++
        [(totalFollowersOf (users'.filter fun u => u.type = t)) /
          max 1 ((users'.filter fun u => u.type = t).length : ℚ)]
    seriesFollowersAll := st.seriesFollowersAll ++ [totalFollowersOf users']
    seriesVibeOverall :=
      st.seriesVibeOverall ++ [(acc.vibeOnCount : ℚ) / max 1 (users'.length : ℚ)]
    seriesVibeByType := fun t =>
      st.seriesVibeByType t ++
        [if 0 < acc.postsByType t then (acc.vibeOnByType t : ℚ) / (acc.postsByType t : ℚ) else 0]
    best := acc.best }

/-- The inner recursion of `runRounds`: run `k` rounds starting at absolute
round index `base + r`. -/
def runRoundsAux (T : Transcend) (cfg : Config) (draws : ℕ → ℕ → AgentDraws)
    (base : ℕ) : ℕ → ℕ → SimState → SimState
  | _, 0, st => st
  | r, k + 1, st =>
      runRoundsAux T cfg draws base (r + 1) k
        (runOneRound T cfg (draws (base + r)) (base + r) st)

/-- `SimulationEngine.runRounds`: run `n` rounds (round indices continue from
`roundsDone`), then add `n` to `roundsDone` once at the end. -/
def runRounds (T : Transcend) (cfg : Config) (draws : ℕ → ℕ → AgentDraws)
    (n : ℕ) (st : SimState) : SimState :=
  let st' := runRoundsAux T cfg draws st.roundsDone 0 n st
  { st' with roundsDone := st'.roundsDone + n }

/-- Random draws consumed when building one agent: the weighted type-choice
draw, the six Gaussian strategy draws, the Gaussian tone draw, the uniform
reaction-preference draw and the Gaussian follower draw. -/
structure BuildDraws where
  typeU : ℚ
  stratG : Attr → ℚ
  vibeG : ℚ
  wU : ℚ
  followG : ℚ

/-- `choiceWeighted`'s subtractive scan (`if ((r -= weights[i]) <= 0)`). -/
def scanPick {α : Type} : List (α × ℚ) → ℚ → Option α
  | [], _ => none
  | (o, w) :: rest, r => if r - w ≤ 0 then some o else scanPick rest (r - w)

/-- `choiceWeighted(opts, weights)` with the uniform draw `u` passed in;
falls back to the last option (the source's `opts[opts.length - 1]`). -/
def choiceWeighted {α : Type} (opts : List α) (ws : List ℚ) (dflt : α) (u : ℚ) : α :=
  (scanPick (opts.zip ws) (u * ws.foldl (· + ·) 0)).getD ((opts.getLast?).getD dflt)

/-- Build one agent (`buildUsers` loop body).  The mix weights are normalised
by their total with the `|| 1` guard; `VIBE_PROB[t] || 0.5` keeps its falsy
fallback. -/
def buildUser (mix : UserType → ℚ) (learnRate followersMean baseVibeProb : ℚ)
    (i : ℕ) (b : BuildDraws) : User :=
  let total := jsOr (USER_TYPES.foldl (fun a t => a + mix t) 0) 1
  let t := choiceWeighted USER_TYPES (USER_TYPES.map fun t => mix t / total) .Normal b.typeU
  { id := i
    type := t
    strategy := fun k => clamp01 (TYPE_BIAS t k + randNormOut 0 0.08 (b.stratG k))
    vibeStrategy :=
      clamp01 ((if t = .Normal then baseVibeProb else jsOr (VIBE_PROB t) 0.5) +
        randNormOut 0 0.15 b.vibeG)
    wReact := clamp01 (0.5 + b.wU * 0.4)
    learnRate := learnRate
    followers := max 0 (round (max 0 (randNormOut followersMean (followersMean * 0.5) b.followG))) }

/-- `SimulationEngine.buildUsers`: one fresh agent per index `0 ≤ i < n`. -/
def buildUsers (n : ℕ) (mix : UserType → ℚ) (learnRate followersMean baseVibeProb : ℚ)
    (bd : ℕ → BuildDraws) : List User :=
  (List.range n).map fun i => buildUser mix learnRate followersMean baseVibeProb i (bd i)

/-- The reset simulation state (the constructor's initial state, and what
`startSimulation` restores before running): given users, empty log and
series, reference scale 100, zero rounds done, no best post. -/
def freshSimState (users : List User) : SimState :=
  { users := users
    rows := []
    ref := 100
    roundsDone := 0
    seriesReward := []
    seriesBait := []
    seriesAttrs := []
    seriesAttrsByType := fun _ => []
    seriesFollowersByType := fun _ => []
    seriesFollowersAll := []
    seriesVibeOverall := []
    seriesVibeByType := fun _ => []
    best := none }

/-- The engine object: its state and the stored last configuration. -/
structure Engine where
  state : SimState
  lastConfig : Option Config

/-- The engine as constructed (before any `startSimulation`). -/
def initEngine : Engine :=
  { state := freshSimState [], lastConfig := none }

/-- `SimulationEngine.startSimulation`: store the config, build a fresh
population, reset every state field, then run `cfg.rounds` rounds. -/
def startSimulation (T : Transcend) (cfg : Config) (bdraws : ℕ → BuildDraws)
    (draws : ℕ → ℕ → AgentDraws) (_e : Engine) : Engine :=
  let users := buildUsers cfg.usersN cfg.mix cfg.learnRate cfg.followersMean cfg.baseVibeProb bdraws
  { state := runRounds T cfg draws cfg.rounds (freshSimState users)
    lastConfig := some cfg }

/-- The two failure modes of `runMoreRounds` (the thrown `Error`s
"No simulation running. Start a new simulation first." and
"No configuration stored. Cannot extend simulation."). -/
inductive ExtendError where
  | notInitialized
  | missingConfig
deriving DecidableEq

/-- `SimulationEngine.runMoreRounds`: reject when no population exists, then
when no configuration is stored; otherwise run `n` more rounds with the
stored configuration.  Both throws happen before any mutation, so an error
result leaves the engine untouched. -/
def runMoreRounds (T : Transcend) (draws : ℕ → ℕ → AgentDraws) (n : ℕ)
    (e : Engine) : Except ExtendError Engine :=
  if e.state.users.length = 0 then .error .notInitialized
  else
    match e.lastConfig with
    | none => .error .missingConfig
    | some cfg => .ok { state := runRounds T cfg draws n e.state, lastConfig := some cfg }

/-- The bait-flag probability as the spec words it: clamp the base-plus-
weighted-sum first, and only then multiply the clamped value by the
vibe-flag-protection multiplier.  Kept for comparison with the source's
`baitFlagProb`. -/
def baitFlagProbClaimed (eff : Attr → ℚ) (vibeOn : Bool) (flagMult : ℚ) : ℚ :=
  let c := clamp01 (0.01 + (0.1 * eff .bait + 0.08 * eff .controversy + 0.06 * eff .dunk))
  if vibeOn then c * flagMult else c

/-- The bait-flag probability as the code actually computes it: the
multiplier applies to the attribute-weighted sum before the 0.01 base is
added and the result clamped. -/
def baitFlagProbAmended (eff : Attr → ℚ) (vibeOn : Bool) (flagMult : ℚ) : ℚ :=
  let m := if vibeOn then flagMult else 1
  clamp01 (0.01 + (0.1 * eff .bait + 0.08 * eff .controversy + 0.06 * eff .dunk) * m)

/-- All five reaction probabilities are non-negative. -/
def probsNonneg (p : Probs) : Prop :=
  0 ≤ p.strong_agree ∧ 0 ≤ p.agree ∧ 0 ≤ p.not_sure ∧ 0 ≤ p.disagree ∧ 0 ≤ p.strong_disagree

/-- All five reaction probabilities lie in `[0, 1]`. -/
def probsBounded (p : Probs) : Prop :=
  probsNonneg p ∧
    p.strong_agree ≤ 1 ∧ p.agree ≤ 1 ∧ p.not_sure ≤ 1 ∧ p.disagree ≤ 1 ∧ p.strong_disagree ≤ 1

/-- Every probability-typed agent field lies in `[0, 1]`. -/
def userBounded (u : User) : Prop :=
  (∀ k, 0 ≤ u.strategy k ∧ u.strategy k ≤ 1) ∧ 0 ≤ u.vibeStrategy ∧ u.vibeStrategy ≤ 1

/-- Concrete transcendental bundle for closed instances. -/
def TW : Transcend := { jtanh := fun _ => 0, jlog10 := fun _ => 0 }

/-- All-zero impression draws. -/
def dZero : ImpDraws := { localU := 0, baitU := 0, reactU := 0, commentU := 0 }

/-- All-zero reaction probabilities. -/
def probsZero : Probs :=
  { strong_agree := 0, agree := 0, not_sure := 0, disagree := 0, strong_disagree := 0 }

/-- Attributes that are identically zero. -/
def effZero : Attr → ℚ := fun _ => 0

/-- All-zero per-agent draws. -/
def adZero : AgentDraws := { attrG := fun _ => 0, vibeU := 0, reachU := 0, imp := fun _ => dZero }

/-- All-zero build draws. -/
def bdZero : BuildDraws := { typeU := 0, stratG := fun _ => 0, vibeG := 0, wU := 0, followG := 0 }

/-- Constant draw schedule for closed instances. -/
def drawsW : ℕ → ℕ → AgentDraws := fun _ _ => adZero

/-- A concrete configuration for closed instances: one user, one round, a
zero bait-ratio threshold (so the penalty triggers immediately) and a
penalty multiplier of 1/2. -/
def cfgW : Config :=
  { usersN := 1
    rounds := 1
    learnRate := 0.1
    baitRatioThresh := 0
    baitPenaltyMult := 1/2
    reachMin := 5
    reachMax := 10
    vibeFlagMult := 1/2
    polarCoupling := 1/2
    vibeHumorPenalty := 0.1
    vibeControversyPenalty := 0.1
    vibeInsightBoost := 0.1
    vibeCommentBoost := 0.1
    vibeReachBoost := 0.1
    followGainThresh := 1
    followersMean := 10
    followerReachFactor := 0
    globalAudienceK := 100
    homophilyStrength := 1/2
    viralityThreshold := 50
    localFloor := 0.1
    followGainRate := 1
    followLossRate := 1
    w := fun _ => 1
    boosts := fun _ => 0
    mix := fun _ => 1
    baseVibeProb := 0.25
    maWindow := 5 }

/-- A concrete agent for closed instances. -/
def userW : User :=
  { id := 0
    type := .Normal
    strategy := fun _ => 1/2
    vibeStrategy := 1/2
    wReact := 1/2
    learnRate := 1/10
    followers := 0 }

/-- A loop state in which the bait penalty is already active and the current
comment probability is 1. -/
def sPen : ImpState :=
  { counts := fun _ => 0
    baitFlags := 0
    comments := 0
    interactions := 0
    penalty := true
    commentP := 1 }

theorem clamp01_nonneg (x : ℚ) : 0 ≤ clamp01 x := le_max_left 0 _

theorem clamp01_le_one (x : ℚ) : clamp01 x ≤ 1 :=
  max_le (by norm_num) (min_le_left 1 x)

/-- C2: the source multiplies the attribute-weighted sum by the
vibe-flag-protection multiplier before adding the 0.01 base and clamping,
rather than multiplying the clamped value. -/
theorem c2_baitFlagProb_amended (eff : Attr → ℚ) (vibeOn : Bool) (flagMult : ℚ) :
    baitFlagProb eff vibeOn flagMult = baitFlagProbAmended eff vibeOn flagMult := by
  cases vibeOn <;> simp [baitFlagProb, baitFlagProbAmended]

/-- C2 counterexample: with all attributes zero and tone adopted, the code
yields clamp01(0.01) = 0.01 while the claimed formula yields 0.01 times the
multiplier (= 0.005 at multiplier 1/2). -/
theorem c2_counterexample :
    baitFlagProb effZero true (1/2) ≠ baitFlagProbClaimed effZero true (1/2) := by
  norm_num [baitFlagProb, baitFlagProbClaimed, clamp01, effZero, min_def, max_def]

theorem impressionStep_penalty_sticky (cfg : Config) (followers : ℤ) (probsBase : Probs)
    (baitP : ℚ) (i : ℕ) (d : ImpDraws) (s : ImpState) (h : s.penalty = true) :
    (impressionStep cfg followers probsBase baitP i d s).penalty = true := by
  simp [impressionStep, impPenaltyAfter, h]

theorem impressionStep_commentP_of_penalty (cfg : Config) (followers : ℤ)
    (probsBase : Probs) (baitP : ℚ) (i : ℕ) (d : ImpDraws) (s : ImpState)
    (h : s.penalty = true) :
    (impressionStep cfg followers probsBase baitP i d s).commentP =
      s.commentP * cfg.baitPenaltyMult := by
  simp [impressionStep, impCommentPUsed, impPenaltyAfter, h]

theorem impLoopFrom_penalty_sticky (cfg : Config) (followers : ℤ) (probsBase : Probs)
    (baitP : ℚ) (draws : ℕ → ImpDraws) :
    ∀ (k i : ℕ) (s : ImpState), s.penalty = true →
      (impLoopFrom cfg followers probsBase baitP draws i k s).penalty = true ∧
      (impLoopFrom cfg followers probsBase baitP draws i k s).commentP =
        s.commentP * cfg.baitPenaltyMult ^ k := by
  intro k
  induction k with
  | zero => exact fun i s h => ⟨h, by simp [impLoopFrom]⟩
  | succ n ih =>
    intro i s h
    have h1 := impressionStep_penalty_sticky cfg followers probsBase baitP i (draws i) s h
    have h2 := impressionStep_commentP_of_penalty cfg followers probsBase baitP i (draws i) s h
    have h3 := ih (i + 1) (impressionStep cfg followers probsBase baitP i (draws i) s) h1
    refine ⟨h3.1, ?_⟩
    show (impLoopFrom cfg followers probsBase baitP draws (i + 1) n
      (impressionStep cfg followers probsBase baitP i (draws i) s)).commentP = _
    rw [h3.2, h2]
    ring

/-- C1 (amended): once active, the bait penalty stays active for the rest of
the post's impression loop; while active, each impression's five reaction
probabilities are the per-impression adjusted probabilities times the
penalty multiplier, but the comment probability compounds — it is multiplied
by the penalty multiplier once per penalized impression, so after `k`
penalized impressions it is the original times the multiplier to the `k` —
and the penalty flag starts out false for every post, so it never carries
over between posts. -/
theorem c1_penalty_sticky_amended (cfg : Config) (followers : ℤ) (probsBase : Probs)
    (baitP : ℚ) (draws : ℕ → ImpDraws) (i k : ℕ) (d : ImpDraws) (s : ImpState) (c0 : ℚ)
    (hpen : s.penalty = true) :
    (impLoopFrom cfg followers probsBase baitP draws i k s).penalty = true ∧
    impProbsUsed cfg followers probsBase baitP i d s =
      scaleProbs (impProbsPre cfg followers probsBase i d s) cfg.baitPenaltyMult ∧
    impCommentPUsed cfg baitP d s = s.commentP * cfg.baitPenaltyMult ∧
    (impLoopFrom cfg followers probsBase baitP draws i k s).commentP =
      s.commentP * cfg.baitPenaltyMult ^ k ∧
    (initImpState c0).penalty = false := by
  obtain ⟨h1, h2⟩ := impLoopFrom_penalty_sticky cfg followers probsBase baitP draws k i s hpen
  refine ⟨h1, ?_, ?_, h2, rfl⟩
  · simp [impProbsUsed, impPenaltyAfter, hpen]
  · simp [impCommentPUsed, impPenaltyAfter, hpen]

/-- C1 witness: a concrete already-penalized loop state run for two more
impressions keeps the penalty and squares the multiplier on the comment
probability. -/
theorem c1_witness :
    sPen.penalty = true ∧
    (impLoopFrom cfgW 0 probsZero 0 (fun _ => dZero) 0 2 sPen).penalty = true ∧
    (impLoopFrom cfgW 0 probsZero 0 (fun _ => dZero) 0 2 sPen).commentP =
      sPen.commentP * cfgW.baitPenaltyMult ^ 2 ∧
    (initImpState 1).penalty = false :=
  have H := c1_penalty_sticky_amended cfgW 0 probsZero 0 (fun _ => dZero) 0 2 dZero sPen 1 rfl
  ⟨rfl, H.1, H.2.2.2.1, H.2.2.2.2⟩

/-- C1 counterexample: with the threshold at zero the penalty activates on
the very first impression; at the second impression the comment probability
actually used is the original times the multiplier squared (1/4), not the
original times the multiplier (1/2) as the claim asserts. -/
theorem c1_counterexample :
    impCommentPUsed cfgW 0 dZero
        (impLoopFrom cfgW 0 probsZero 0 (fun _ => dZero) 0 1 (initImpState 1)) ≠
      (1 : ℚ) * cfgW.baitPenaltyMult := by
  norm_num [impCommentPUsed, impLoopFrom, impressionStep, impProbsUsed, impProbsPre,
    impProbsHom, impLocalShare, impPenaltyAfter, impBaitFlags, initImpState,
    applyHomophily, renormIfGt1, divProbs, scaleProbs, pTotal, clamp01, sampleReaction,
    bumpCount, cfgW, dZero, probsZero, min_def, max_def]

/-- C4: the learning update uses the just-updated reference scale and the raw
generated attributes: each strategy component becomes
clamp(0.97 * clamp(s + lr * tanh((reward - 0.5 ref) / (0.75 ref)) * (gen - s)) + 0.03 * bias)
with ref the post-EMA reference, and the EMA is ref = 0.98 ref + 0.02 max(1, reward). -/
theorem c4_learning_update (T : Transcend) (cfg : Config) (ri : ℕ) (d : AgentDraws)
    (u : User) (ref : ℚ) (k : Attr) :
    (processUser T cfg ri d u ref).user.strategy k =
      clamp01 (0.97 * clamp01 (u.strategy k +
          u.learnRate *
            T.jtanh ((postReward T cfg u d - 0.5 * refUpdate ref (postReward T cfg u d)) /
              (0.75 * refUpdate ref (postReward T cfg u d))) *
          (genAttrs u d k - u.strategy k)) +
        0.03 * TYPE_BIAS u.type k) ∧
    refUpdate ref (postReward T cfg u d) =
      0.98 * ref + 0.02 * max 1 (postReward T cfg u d) :=
  ⟨rfl, rfl⟩

/-- C7: the follower update is followers = max(0, followers + round(gain - loss))
with gain paid only when the reward clears the gain threshold times the
reference, and loss proportional to the excess bait ratio; the result is
never negative. -/
theorem c7_follower_update (u : User) (counts : React → ℕ) (comments baitFlags : ℕ)
    (cfg : Config) (interactions : ℕ) (reward ref : ℚ) :
    0 ≤ (followerUpdate u counts comments baitFlags cfg interactions reward ref).followers ∧
    (followerUpdate u counts comments baitFlags cfg interactions reward ref).followers =
      max 0 (u.followers + round (
        (if cfg.followGainThresh * ref < reward then
            cfg.followGainRate * (2 * (counts .SA : ℚ) + (counts .A : ℚ) + 0.2 * (comments : ℚ))
          else 0) -
        cfg.followLossRate * max 0 (fuBaitFrac baitFlags interactions - cfg.baitRatioThresh) * 10)) := by
  refine ⟨le_max_left 0 _, ?_⟩
  simp [followerUpdate, one_mul]

/-- C3 (amended): the base reach draw floor(min + u * (max - min)) with
u in [0,1) ranges over exactly the integers of [reachMin, reachMax - 1] —
reachMax itself is never drawn — and the reach is
max(5, floor(base * (0.3 + 2 score) * (1 + ff log10(1 + followers)) * vibe)),
hence always at least 5. -/
theorem c3_reach_amended (minR maxR : ℤ) (u : ℚ) (h0 : 0 ≤ u) (h1 : u < 1)
    (hlt : minR < maxR) :
    (minR ≤ baseDraw minR maxR u ∧ baseDraw minR maxR u ≤ maxR - 1) ∧
    (∀ k : ℤ, minR ≤ k → k ≤ maxR - 1 →
      ∃ v : ℚ, 0 ≤ v ∧ v < 1 ∧ baseDraw minR maxR v = k) ∧
    (∀ (T : Transcend) (eff : Attr → ℚ) (ff : ℚ) (fol : ℤ) (vibeOn : Bool) (vrb : ℚ),
      5 ≤ reachFromAttrs T eff minR maxR ff fol vibeOn vrb u ∧
      reachFromAttrs T eff minR maxR ff fol vibeOn vrb u =
        max 5 ⌊(baseDraw minR maxR u : ℚ) * (0.3 + 2.0 * posScore eff) *
          (1 + ff * T.jlog10 (1 + (fol : ℚ))) * (if vibeOn then 1 + vrb else 1)⌋) := by
  have hD : (0 : ℚ) < (maxR : ℚ) - (minR : ℚ) := by
    rw [sub_pos]
    exact_mod_cast hlt
  refine ⟨⟨?_, ?_⟩, ?_, ?_⟩
  · apply Int.le_floor.mpr
    nlinarith
  · have hup : baseDraw minR maxR u < maxR := by
      apply Int.floor_lt.mpr
      nlinarith
    omega
  · intro k hk1 hk2
    have hk1q : (minR : ℚ) ≤ (k : ℚ) := by exact_mod_cast hk1
    have hk2q : (k : ℚ) ≤ (maxR : ℚ) - 1 := by
      have : (k : ℚ) ≤ ((maxR - 1 : ℤ) : ℚ) := by exact_mod_cast hk2
      push_cast at this
      linarith
    refine ⟨((k : ℚ) - (minR : ℚ)) / ((maxR : ℚ) - (minR : ℚ)), ?_, ?_, ?_⟩
    · exact div_nonneg (by linarith) hD.le
    · rw [div_lt_one hD]
      linarith
    · unfold baseDraw
      rw [div_mul_cancel₀ _ hD.ne']
      rw [add_sub_cancel]
      exact Int.floor_intCast k
  · intro T eff ff fol vibeOn vrb
    refine ⟨le_max_left 5 _, ?_⟩
    unfold reachFromAttrs
    cases vibeOn <;> simp [mul_one]

/-- C3 witness: at reach bounds [5, 10] and draw 1/2 the base lies in
[5, 9]. -/
theorem c3_witness :
    ((0 : ℚ) ≤ 1/2 ∧ (1/2 : ℚ) < 1 ∧ (5 : ℤ) < 10) ∧
      (5 ≤ baseDraw 5 10 (1/2) ∧ baseDraw 5 10 (1/2) ≤ 10 - 1) :=
  ⟨⟨by norm_num, by norm_num, by decide⟩,
    (c3_reach_amended 5 10 (1/2) (by norm_num) (by norm_num) (by decide)).1⟩

/-- C3 counterexample: with reach bounds [5, 10], no uniform draw in [0, 1)
produces the base value 10 — the upper bound is not a possible draw, against
the claim's "every integer in that range, including reachMax". -/
theorem c3_counterexample : ¬ ∃ v : ℚ, 0 ≤ v ∧ v < 1 ∧ baseDraw 5 10 v = 10 := by
  rintro ⟨v, hv0, hv1, he⟩
  have h : baseDraw 5 10 v < 10 := by
    apply Int.floor_lt.mpr
    push_cast
    nlinarith
  omega

theorem pTotal_divProbs (p : Probs) (t : ℚ) : pTotal (divProbs p t) = pTotal p / t := by
  simp [pTotal, divProbs, div_add_div_same]

theorem pTotal_scaleProbs (p : Probs) (m : ℚ) : pTotal (scaleProbs p m) = pTotal p * m := by
  simp [pTotal, scaleProbs]
  ring

theorem probsNonneg_divProbs (p : Probs) (t : ℚ) (hp : probsNonneg p) (ht : 0 ≤ t) :
    probsNonneg (divProbs p t) :=
  ⟨div_nonneg hp.1 ht, div_nonneg hp.2.1 ht, div_nonneg hp.2.2.1 ht,
    div_nonneg hp.2.2.2.1 ht, div_nonneg hp.2.2.2.2 ht⟩

theorem renormIfGt1_nonneg (p : Probs) (hp : probsNonneg p) :
    probsNonneg (renormIfGt1 p) := by
  unfold renormIfGt1
  split
  · exact probsNonneg_divProbs p _ hp (by linarith)
  · exact hp

theorem renormIfGt1_total_le_one (p : Probs) (_hp : probsNonneg p) :
    pTotal (renormIfGt1 p) ≤ 1 := by
  unfold renormIfGt1
  split
  · rename_i h
    rw [pTotal_divProbs, div_le_one (by linarith)]
  · linarith [not_lt.mp (by assumption : ¬ 1 < pTotal p)]

theorem renormIfGt1_bounded (p : Probs) (hp : probsBounded p) :
    probsBounded (renormIfGt1 p) := by
  obtain ⟨hn, h1, h2, h3, h4, h5⟩ := hp
  refine ⟨renormIfGt1_nonneg p hn, ?_⟩
  unfold renormIfGt1
  split
  · rename_i h
    have ht : (1 : ℚ) ≤ pTotal p := h.le
    exact ⟨le_trans (div_le_self hn.1 ht) h1, le_trans (div_le_self hn.2.1 ht) h2,
      le_trans (div_le_self hn.2.2.1 ht) h3, le_trans (div_le_self hn.2.2.2.1 ht) h4,
      le_trans (div_le_self hn.2.2.2.2 ht) h5⟩
  · exact ⟨h1, h2, h3, h4, h5⟩

/-- The five base reaction probabilities are clamped then (possibly)
renormalised, so each lies in `[0, 1]`. -/
theorem reactionProbs_bounded (eff : Attr → ℚ) : probsBounded (reactionProbs eff) := by
  unfold reactionProbs
  exact renormIfGt1_bounded _
    ⟨⟨clamp01_nonneg _, clamp01_nonneg _, clamp01_nonneg _, clamp01_nonneg _, clamp01_nonneg _⟩,
      clamp01_le_one _, clamp01_le_one _, clamp01_le_one _, clamp01_le_one _, clamp01_le_one _⟩

theorem applyHomophily_nonneg (p : Probs) (h : ℚ) (hp : probsNonneg p)
    (h0 : 0 ≤ h) (h1 : h ≤ 1) : probsNonneg (applyHomophily p h) := by
  unfold applyHomophily
  exact renormIfGt1_nonneg _
    ⟨mul_nonneg hp.1 (by linarith), mul_nonneg hp.2.1 (by linarith), hp.2.2.1,
      mul_nonneg hp.2.2.2.1 (by linarith), mul_nonneg hp.2.2.2.2 (by linarith)⟩

theorem impProbsHom_nonneg (cfg : Config) (followers : ℤ) (probsBase : Probs) (i : ℕ)
    (d : ImpDraws) (hpb : probsNonneg probsBase) (h0 : 0 ≤ cfg.homophilyStrength)
    (h1 : cfg.homophilyStrength ≤ 1) :
    probsNonneg (impProbsHom cfg followers probsBase i d) := by
  unfold impProbsHom
  split
  · exact applyHomophily_nonneg probsBase cfg.homophilyStrength hpb h0 h1
  · exact hpb

theorem impProbsPre_nonneg_total (cfg : Config) (followers : ℤ) (probsBase : Probs)
    (i : ℕ) (d : ImpDraws) (s : ImpState) (hpb : probsNonneg probsBase)
    (h0 : 0 ≤ cfg.homophilyStrength) (h1 : cfg.homophilyStrength ≤ 1) :
    probsNonneg (impProbsPre cfg followers probsBase i d s) ∧
      pTotal (impProbsPre cfg followers probsBase i d s) ≤ 1 := by
  have hq := impProbsHom_nonneg cfg followers probsBase i d hpb h0 h1
  unfold impProbsPre
  constructor
  · exact renormIfGt1_nonneg _
      ⟨clamp01_nonneg _, hq.2.1, hq.2.2.1, hq.2.2.2.1, clamp01_nonneg _⟩
  · exact renormIfGt1_total_le_one _
      ⟨clamp01_nonneg _, hq.2.1, hq.2.2.1, hq.2.2.2.1, clamp01_nonneg _⟩

/-- C5: after the homophily adjustment, the polarisation coupling, the
renormalisations and the bait penalty (with multiplier in [0, 1]), the five
reaction probabilities handed to the sampler are non-negative and sum to at
most 1, so the residual "none" probability is well defined. -/
theorem c5_probs_sum_le_one (cfg : Config) (eff : Attr → ℚ) (followers : ℤ)
    (baitP : ℚ) (i : ℕ) (d : ImpDraws) (s : ImpState)
    (h0 : 0 ≤ cfg.homophilyStrength) (h1 : cfg.homophilyStrength ≤ 1)
    (_hpc : 0 ≤ cfg.polarCoupling)
    (h3 : 0 ≤ cfg.baitPenaltyMult) (h4 : cfg.baitPenaltyMult ≤ 1) :
    probsNonneg (impProbsUsed cfg followers (reactionProbs eff) baitP i d s) ∧
      pTotal (impProbsUsed cfg followers (reactionProbs eff) baitP i d s) ≤ 1 := by
  have hbase : probsNonneg (reactionProbs eff) := (reactionProbs_bounded eff).1
  obtain ⟨hpre, hpret⟩ :=
    impProbsPre_nonneg_total cfg followers (reactionProbs eff) i d s hbase h0 h1
  unfold impProbsUsed
  split
  · constructor
    · exact ⟨mul_nonneg hpre.1 h3, mul_nonneg hpre.2.1 h3, mul_nonneg hpre.2.2.1 h3,
        mul_nonneg hpre.2.2.2.1 h3, mul_nonneg hpre.2.2.2.2 h3⟩
    · rw [pTotal_scaleProbs]
      exact mul_le_one₀ hpret h3 h4
  · exact ⟨hpre, hpret⟩

/-- C5 witness: concrete configuration, attributes, draw and loop state. -/
theorem c5_witness :
    (0 ≤ cfgW.homophilyStrength ∧ cfgW.homophilyStrength ≤ 1 ∧
      0 ≤ cfgW.polarCoupling ∧ 0 ≤ cfgW.baitPenaltyMult ∧ cfgW.baitPenaltyMult ≤ 1) ∧
    (probsNonneg (impProbsUsed cfgW 0 (reactionProbs effZero) 0 0 dZero sPen) ∧
      pTotal (impProbsUsed cfgW 0 (reactionProbs effZero) 0 0 dZero sPen) ≤ 1) :=
  ⟨⟨by norm_num [cfgW], by norm_num [cfgW], by norm_num [cfgW], by norm_num [cfgW],
      by norm_num [cfgW]⟩,
    c5_probs_sum_le_one cfgW effZero 0 0 0 dZero sPen (by norm_num [cfgW])
      (by norm_num [cfgW]) (by norm_num [cfgW]) (by norm_num [cfgW]) (by norm_num [cfgW])⟩

/-- `learn` ends every mutated probability field with a clamp. -/
theorem learn_userBounded (T : Transcend) (u : User) (attrs : Attr → ℚ)
    (vibeUsed : Bool) (reward ref : ℚ) :
    userBounded (learn T u attrs vibeUsed reward ref) :=
  ⟨fun _ => ⟨clamp01_nonneg _, clamp01_le_one _⟩, clamp01_nonneg _, clamp01_le_one _⟩

/-- `followerUpdate` only touches `followers`, so the processed agent keeps
the clamped fields `learn` produced. -/
theorem processUser_userBounded (T : Transcend) (cfg : Config) (ri : ℕ)
    (d : AgentDraws) (u : User) (ref : ℚ) :
    userBounded (processUser T cfg ri d u ref).user :=
  learn_userBounded T u (genAttrs u d) (vibeDecision u d) (postReward T cfg u d)
    (refUpdate ref (postReward T cfg u d))

theorem roundFold_usersRev_bounded (T : Transcend) (cfg : Config) (ri : ℕ)
    (rdraws : ℕ → AgentDraws) :
    ∀ (l : List (ℕ × User)) (acc : RoundAcc),
      (∀ u ∈ acc.usersRev, userBounded u) →
      ∀ u ∈ (l.foldl (roundUserStep T cfg ri rdraws) acc).usersRev, userBounded u := by
  intro l
  induction l with
  | nil => exact fun acc h => h
  | cons a tl ih =>
    intro acc h
    rw [List.foldl_cons]
    apply ih
    intro u hu
    simp only [roundUserStep, List.mem_cons] at hu
    rcases hu with h1 | h2
    · subst h1
      exact processUser_userBounded T cfg ri (rdraws a.1) a.2 acc.ref
    · exact h u h2

theorem runOneRound_users_bounded (T : Transcend) (cfg : Config)
    (rdraws : ℕ → AgentDraws) (ri : ℕ) (st : SimState) :
    ∀ u ∈ (runOneRound T cfg rdraws ri st).users, userBounded u := by
  intro u hu
  simp only [runOneRound, List.mem_reverse] at hu
  exact roundFold_usersRev_bounded T cfg ri rdraws st.users.enum _ (by intro x hx; simp at hx)
    u hu

theorem runRoundsAux_users_bounded (T : Transcend) (cfg : Config)
    (draws : ℕ → ℕ → AgentDraws) (base : ℕ) :
    ∀ (k r : ℕ) (st : SimState),
      ∀ u ∈ (runRoundsAux T cfg draws base r (k + 1) st).users, userBounded u := by
  intro k
  induction k with
  | zero =>
    intro r st u hu
    have he : runRoundsAux T cfg draws base r 1 st =
        runOneRound T cfg (draws (base + r)) (base + r) st := rfl
    rw [he] at hu
    exact runOneRound_users_bounded T cfg (draws (base + r)) (base + r) st u hu
  | succ n ih =>
    intro r st u hu
    have he : runRoundsAux T cfg draws base r (n + 2) st =
        runRoundsAux T cfg draws base (r + 1) (n + 1)
          (runOneRound T cfg (draws (base + r)) (base + r) st) := rfl
    rw [he] at hu
    exact ih (r + 1) (runOneRound T cfg (draws (base + r)) (base + r) st) u hu

/-- C6: after every round (any positive number of rounds), every agent's
strategy components and tone propensity are in [0, 1]; and the derived
per-post probabilities — the five base reaction probabilities, the bait-flag
probability and the comment probability — are in [0, 1] where computed. -/
theorem c6_probability_fields_bounded :
    (∀ (T : Transcend) (cfg : Config) (draws : ℕ → ℕ → AgentDraws) (n : ℕ) (st : SimState),
      ((runRounds T cfg draws (n + 1) st).users).Forall userBounded) ∧
    (∀ eff : Attr → ℚ, probsBounded (reactionProbs eff)) ∧
    (∀ (eff : Attr → ℚ) (vibeOn : Bool) (m : ℚ),
      0 ≤ baitFlagProb eff vibeOn m ∧ baitFlagProb eff vibeOn m ≤ 1) ∧
    (∀ (eff : Attr → ℚ) (vibeOn : Bool) (b : ℚ),
      0 ≤ commentProb eff vibeOn b ∧ commentProb eff vibeOn b ≤ 1) := by
  refine ⟨?_, reactionProbs_bounded, ?_, ?_⟩
  · intro T cfg draws n st
    rw [List.forall_iff_forall_mem]
    intro u hu
    exact runRoundsAux_users_bounded T cfg draws st.roundsDone n 0 st u hu
  · intro eff vibeOn m
    exact ⟨clamp01_nonneg _, clamp01_le_one _⟩
  · intro eff vibeOn b
    unfold commentProb
    split
    · exact ⟨clamp01_nonneg _, clamp01_le_one _⟩
    · exact ⟨clamp01_nonneg _, clamp01_le_one _⟩

theorem roundFold_lengths (T : Transcend) (cfg : Config) (ri : ℕ)
    (rdraws : ℕ → AgentDraws) :
    ∀ (l : List (ℕ × User)) (acc : RoundAcc),
      ((l.foldl (roundUserStep T cfg ri rdraws) acc).usersRev).length =
          acc.usersRev.length + l.length ∧
        ((l.foldl (roundUserStep T cfg ri rdraws) acc).rowsRev).length =
          acc.rowsRev.length + l.length := by
  intro l
  induction l with
  | nil => intro acc; simp
  | cons a tl ih =>
    intro acc
    rw [List.foldl_cons]
    obtain ⟨h1, h2⟩ := ih (roundUserStep T cfg ri rdraws acc a)
    constructor
    · rw [h1]
      simp only [roundUserStep, List.length_cons]
      omega
    · rw [h2]
      simp only [roundUserStep, List.length_cons]
      omega

theorem runOneRound_lengths (T : Transcend) (cfg : Config) (rdraws : ℕ → AgentDraws)
    (ri : ℕ) (st : SimState) :
    (runOneRound T cfg rdraws ri st).users.length = st.users.length ∧
      (runOneRound T cfg rdraws ri st).rows.length = st.rows.length + st.users.length ∧
      (runOneRound T cfg rdraws ri st).roundsDone = st.roundsDone ∧
      (runOneRound T cfg rdraws ri st).seriesReward.length = st.seriesReward.length + 1 := by
  obtain ⟨h1, h2⟩ := roundFold_lengths T cfg ri rdraws st.users.enum
    { ref := st.ref
      usersRev := []
      rowsRev := []
      best := st.best
      rewardSum := 0
      baitSum := 0
      count := 0
      attrSum := fun _ => 0
      attrN := 0
      attrSumByType := fun _ _ => 0
      attrNByType := fun _ => 0
      vibeOnCount := 0
      vibeOnByType := fun _ => 0
      postsByType := fun _ => 0 }
  refine ⟨?_, ?_, rfl, ?_⟩
  · simp only [runOneRound, List.length_reverse]
    rw [h1]
    simp [List.enum_length]
  · simp only [runOneRound, List.length_append, List.length_reverse]
    rw [h2]
    simp [List.enum_length]
  · simp [runOneRound]

theorem runRoundsAux_lengths (T : Transcend) (cfg : Config)
    (draws : ℕ → ℕ → AgentDraws) (base : ℕ) :
    ∀ (k r : ℕ) (st : SimState),
      (runRoundsAux T cfg draws base r k st).users.length = st.users.length ∧
        (runRoundsAux T cfg draws base r k st).rows.length =
          st.rows.length + k * st.users.length ∧
        (runRoundsAux T cfg draws base r k st).roundsDone = st.roundsDone ∧
        (runRoundsAux T cfg draws base r k st).seriesReward.length =
          st.seriesReward.length + k := by
  intro k
  induction k with
  | zero => intro r st; exact ⟨rfl, by simp [runRoundsAux], rfl, rfl⟩
  | succ n ih =>
    intro r st
    obtain ⟨o1, o2, o3, o4⟩ := runOneRound_lengths T cfg (draws (base + r)) (base + r) st
    obtain ⟨a1, a2, a3, a4⟩ := ih (r + 1) (runOneRound T cfg (draws (base + r)) (base + r) st)
    have he : runRoundsAux T cfg draws base r (n + 1) st =
        runRoundsAux T cfg draws base (r + 1) n
          (runOneRound T cfg (draws (base + r)) (base + r) st) := rfl
    rw [he]
    refine ⟨by rw [a1, o1], ?_, by rw [a3, o3], by rw [a4, o4]; ring⟩
    rw [a2, o2, o1]
    ring

theorem runRounds_lengths (T : Transcend) (cfg : Config) (draws : ℕ → ℕ → AgentDraws)
    (n : ℕ) (st : SimState) :
    (runRounds T cfg draws n st).users.length = st.users.length ∧
      (runRounds T cfg draws n st).rows.length = st.rows.length + n * st.users.length ∧
      (runRounds T cfg draws n st).roundsDone = st.roundsDone + n ∧
      (runRounds T cfg draws n st).seriesReward.length = st.seriesReward.length + n := by
  obtain ⟨a1, a2, a3, a4⟩ := runRoundsAux_lengths T cfg draws st.roundsDone n 0 st
  exact ⟨a1, a2, by simp only [runRounds]; rw [a3], a4⟩

theorem buildUsers_length (n : ℕ) (mix : UserType → ℚ)
    (learnRate followersMean baseVibeProb : ℚ) (bd : ℕ → BuildDraws) :
    (buildUsers n mix learnRate followersMean baseVibeProb bd).length = n := by
  simp [buildUsers]

/-- C8: `start` builds `usersN` fresh agents, runs exactly `rounds` rounds
(one log row per agent per round, one series entry per round), stores the
configuration, and a subsequent `extend n` runs `n` more rounds on the same
agents, appending so that the counters become `rounds + n`. -/
theorem c8_start_extend_bookkeeping (T : Transcend) (cfg : Config)
    (bdraws : ℕ → BuildDraws) (draws draws2 : ℕ → ℕ → AgentDraws) (n : ℕ)
    (e : Engine) (h : 0 < cfg.usersN) :
    (startSimulation T cfg bdraws draws e).state.users.length = cfg.usersN ∧
    (startSimulation T cfg bdraws draws e).state.roundsDone = cfg.rounds ∧
    (startSimulation T cfg bdraws draws e).state.rows.length = cfg.usersN * cfg.rounds ∧
    (startSimulation T cfg bdraws draws e).state.seriesReward.length = cfg.rounds ∧
    (startSimulation T cfg bdraws draws e).lastConfig = some cfg ∧
    runMoreRounds T draws2 n (startSimulation T cfg bdraws draws e) =
      .ok { state := runRounds T cfg draws2 n (startSimulation T cfg bdraws draws e).state,
            lastConfig := some cfg } ∧
    (runRounds T cfg draws2 n (startSimulation T cfg bdraws draws e).state).roundsDone =
      cfg.rounds + n ∧
    (runRounds T cfg draws2 n (startSimulation T cfg bdraws draws e).state).rows.length =
      cfg.usersN * (cfg.rounds + n) ∧
    (runRounds T cfg draws2 n (startSimulation T cfg bdraws draws e).state).seriesReward.length =
      cfg.rounds + n ∧
    (runRounds T cfg draws2 n (startSimulation T cfg bdraws draws e).state).users.length =
      cfg.usersN := by
  have hb := buildUsers_length cfg.usersN cfg.mix cfg.learnRate cfg.followersMean
    cfg.baseVibeProb bdraws
  obtain ⟨s1, s2, s3, s4⟩ := runRounds_lengths T cfg draws cfg.rounds
    (freshSimState (buildUsers cfg.usersN cfg.mix cfg.learnRate cfg.followersMean
      cfg.baseVibeProb bdraws))
  have hu : (startSimulation T cfg bdraws draws e).state.users.length = cfg.usersN := by
    show (runRounds T cfg draws cfg.rounds _).users.length = cfg.usersN
    rw [s1]
    exact hb
  obtain ⟨t1, t2, t3, t4⟩ :=
    runRounds_lengths T cfg draws2 n (startSimulation T cfg bdraws draws e).state
  have hrd : (startSimulation T cfg bdraws draws e).state.roundsDone = cfg.rounds := by
    show (runRounds T cfg draws cfg.rounds _).roundsDone = cfg.rounds
    rw [s3]
    simp [freshSimState]
  have hrows : (startSimulation T cfg bdraws draws e).state.rows.length =
      cfg.usersN * cfg.rounds := by
    show (runRounds T cfg draws cfg.rounds _).rows.length = cfg.usersN * cfg.rounds
    rw [s2]
    simp only [freshSimState, List.length_nil, Nat.zero_add, hb]
    exact Nat.mul_comm _ _
  have hsr : (startSimulation T cfg bdraws draws e).state.seriesReward.length = cfg.rounds := by
    show (runRounds T cfg draws cfg.rounds _).seriesReward.length = cfg.rounds
    rw [s4]
    simp [freshSimState]
  refine ⟨hu, hrd, hrows, hsr, rfl, ?_, ?_, ?_, ?_, ?_⟩
  · unfold runMoreRounds
    rw [if_neg (by omega)]
    rfl
  · rw [t3, hrd]
  · rw [t2, hu, hrows]
    ring
  · rw [t4, hsr]
  · rw [t1, hu]

/-- C8 witness: one user, one round. -/
theorem c8_witness :
    0 < cfgW.usersN ∧
    (startSimulation TW cfgW (fun _ => bdZero) drawsW initEngine).state.users.length =
      cfgW.usersN ∧
    (startSimulation TW cfgW (fun _ => bdZero) drawsW initEngine).state.roundsDone =
      cfgW.rounds ∧
    (runRounds TW cfgW drawsW 3
        (startSimulation TW cfgW (fun _ => bdZero) drawsW initEngine).state).roundsDone =
      cfgW.rounds + 3 :=
  have H := c8_start_extend_bookkeeping TW cfgW (fun _ => bdZero) drawsW drawsW 3 initEngine
    (by norm_num [cfgW])
  ⟨by norm_num [cfgW], H.1, H.2.1, H.2.2.2.2.2.2.1⟩

/-- C9: `extend` fails with NotInitialized when no population exists, fails
with MissingConfig when a population exists but no configuration is stored
(both before any mutation, so the state is untouched), and otherwise runs
`n` more rounds with the stored configuration. -/
theorem c9_extend_errors (T : Transcend) (draws : ℕ → ℕ → AgentDraws) (n : ℕ)
    (e : Engine) :
    (e.state.users = [] → runMoreRounds T draws n e = .error .notInitialized) ∧
    (e.state.users ≠ [] → e.lastConfig = none →
      runMoreRounds T draws n e = .error .missingConfig) ∧
    (∀ cfg : Config, e.state.users ≠ [] → e.lastConfig = some cfg →
      runMoreRounds T draws n e =
        .ok { state := runRounds T cfg draws n e.state, lastConfig := some cfg }) := by
  refine ⟨?_, ?_, ?_⟩
  · intro hnil
    unfold runMoreRounds
    rw [if_pos (by simp [hnil])]
  · intro hne hcfg
    unfold runMoreRounds
    rw [if_neg (by simpa using hne), hcfg]
  · intro cfg hne hcfg
    unfold runMoreRounds
    rw [if_neg (by simpa using hne), hcfg]

/-- C9 witness: the freshly constructed engine raises NotInitialized, an
engine with users but no stored config raises MissingConfig, and a fully
initialised engine extends. -/
theorem c9_witness :
    runMoreRounds TW drawsW 5 initEngine = .error .notInitialized ∧
    runMoreRounds TW drawsW 5 { state := freshSimState [userW], lastConfig := none } =
      .error .missingConfig ∧
    runMoreRounds TW drawsW 5 { state := freshSimState [userW], lastConfig := some cfgW } =
      .ok { state := runRounds TW cfgW drawsW 5 (freshSimState [userW]),
            lastConfig := some cfgW } :=
  ⟨(c9_extend_errors TW drawsW 5 initEngine).1 rfl,
    (c9_extend_errors TW drawsW 5 { state := freshSimState [userW], lastConfig := none }).2.1
      (by simp [freshSimState]) rfl,
    (c9_extend_errors TW drawsW 5
        { state := freshSimState [userW], lastConfig := some cfgW }).2.2 cfgW
      (by simp [freshSimState]) rfl⟩

theorem refUpdate_ge_one (ref reward : ℚ) (h : 1 ≤ ref) : 1 ≤ refUpdate ref reward := by
  unfold refUpdate
  have hm := le_max_left (1 : ℚ) reward
  linarith

theorem roundFold_ref_ge_one (T : Transcend) (cfg : Config) (ri : ℕ)
    (rdraws : ℕ → AgentDraws) :
    ∀ (l : List (ℕ × User)) (acc : RoundAcc), 1 ≤ acc.ref →
      1 ≤ (l.foldl (roundUserStep T cfg ri rdraws) acc).ref := by
  intro l
  induction l with
  | nil => exact fun acc h => h
  | cons a tl ih =>
    intro acc h
    rw [List.foldl_cons]
    exact ih _ (refUpdate_ge_one acc.ref _ h)

theorem runOneRound_ref_ge_one (T : Transcend) (cfg : Config) (rdraws : ℕ → AgentDraws)
    (ri : ℕ) (st : SimState) (h : 1 ≤ st.ref) :
    1 ≤ (runOneRound T cfg rdraws ri st).ref := by
  exact roundFold_ref_ge_one T cfg ri rdraws st.users.enum _ h

theorem runRoundsAux_ref_ge_one (T : Transcend) (cfg : Config)
    (draws : ℕ → ℕ → AgentDraws) (base : ℕ) :
    ∀ (k r : ℕ) (st : SimState), 1 ≤ st.ref →
      1 ≤ (runRoundsAux T cfg draws base r k st).ref := by
  intro k
  induction k with
  | zero => exact fun r st h => h
  | succ n ih =>
    intro r st h
    exact ih (r + 1) (runOneRound T cfg (draws (base + r)) (base + r) st)
      (runOneRound_ref_ge_one T cfg (draws (base + r)) (base + r) st h)

/-- C10: the reference scale is reset to 100, each per-agent EMA update keeps
it at least 1 (for any reward), it therefore stays at least 1 through any
run, and the learning divisor 0.75 * ref is strictly positive. -/
theorem c10_reference_scale (reward ref : ℚ) (h : 1 ≤ ref) :
    (∀ us : List User, (freshSimState us).ref = 100) ∧
    1 ≤ refUpdate ref reward ∧
    (∀ (T : Transcend) (cfg : Config) (draws : ℕ → ℕ → AgentDraws) (n : ℕ) (st : SimState),
      1 ≤ st.ref → 1 ≤ (runRounds T cfg draws n st).ref) ∧
    (∀ (T : Transcend) (cfg : Config) (bdraws : ℕ → BuildDraws)
        (draws : ℕ → ℕ → AgentDraws) (e : Engine),
      1 ≤ (startSimulation T cfg bdraws draws e).state.ref) ∧
    0 < 0.75 * ref := by
  refine ⟨fun _ => rfl, refUpdate_ge_one ref reward h, ?_, ?_, by linarith⟩
  · intro T cfg draws n st hst
    exact runRoundsAux_ref_ge_one T cfg draws st.roundsDone n 0 st hst
  · intro T cfg bdraws draws e
    exact runRoundsAux_ref_ge_one T cfg draws 0 cfg.rounds 0 _ (by norm_num [freshSimState])

/-- C10 witness: at the reset value 100 the EMA stays at least 1 and the
divisor is positive. -/
theorem c10_witness :
    (1 : ℚ) ≤ 100 ∧ 1 ≤ refUpdate 100 0 ∧ (0 : ℚ) < 0.75 * 100 :=
  have H := c10_reference_scale 0 100 (by norm_num)
  ⟨by norm_num, H.2.1, H.2.2.2.2⟩

end Tweaktok
